import Mathlib

/-!
Shallow embedding of the `RecoverFHE` Solidity contract
(`contracts/RecoverFHE.sol`, reproduced in the repository README).

Machine integers (`uint256`, `uint32`, `address`) are modelled as `Nat`;
the only place a width matters is the `abi.decode(…, (uint32))` step of
`verifyShard` and `combineShards`, where a `% 2 ^ 32` / bound check makes
the 32-bit truncation explicit.  An `euint32` ciphertext handle is
modelled by the natural number that the external FHE layer would decrypt
it to (this is exactly how `combineShards` consumes it:
`abi.decode(FHE.getDecryptionProof(ct), (uint32))`).  The external FHE
precompile operations (`fromExternal`, `isInitialized`,
`checkSignatures`) are opaque capabilities, passed in as an environment
record; `FHE.allowThis` / `FHE.makePubliclyDecryptable` are pure
capability grants with no contract-visible state and are not modelled.
Each external function returns `Except`: an `error` is a Solidity
`revert`, which leaves the whole contract state unchanged.
-/

/-- External FHE capabilities used by the contract, as opaque functions. -/
structure FHEEnv where
  fromExternal : Nat → Nat → Nat
  isInit : Nat → Bool
  checkSignatures : Nat → Nat → Nat → Bool

/-- `struct Shard { euint32 encryptedValue; address holder; bool isVerified; }` -/
structure Shard where
  encryptedValue : Nat
  holder : Nat
  isVerified : Bool
deriving DecidableEq, Repr

/-- Solidity default value of a `Shard` storage slot. -/
def defaultShard : Shard := ⟨0, 0, false⟩

/-- `struct RecoverySession { … }` -/
structure RecoverySession where
  name : String
  threshold : Nat
  totalShards : Nat
  publicValue1 : Nat
  publicValue2 : Nat
  description : String
  creator : Nat
  timestamp : Nat
  decryptedValue : Nat
  isComplete : Bool
deriving DecidableEq, Repr

/-- Solidity default value of a `RecoverySession` storage slot. -/
def defaultSession : RecoverySession := ⟨"", 0, 0, 0, 0, "", 0, 0, 0, false⟩

/-- The contract's storage: `sessions`, `sessionShards`, `shardCount`,
`sessionIds`.  Solidity mappings are total functions into the default
record. -/
structure ContractState where
  sessions : String → RecoverySession
  sessionShards : String → Nat → Shard
  shardCount : String → Nat
  sessionIds : List String

/-- Storage at contract deployment: every mapping slot holds defaults. -/
def initialState : ContractState :=
  ⟨fun _ => defaultSession, fun _ _ => defaultShard, fun _ => 0, []⟩

/-- The contract's events. -/
inductive Event
| SessionCreated (sessionId : String) (creator : Nat)
| ShardAdded (sessionId : String) (shardIndex : Nat) (holder : Nat)
| ShardVerified (sessionId : String) (shardIndex : Nat)
| SessionCompleted (sessionId : String) (decryptedValue : Nat)
deriving DecidableEq, Repr

/-- Revert reasons, one per `require` string of the contract (plus the
revert of a malformed `abi.decode(…, (uint32))` payload). -/
inductive Err
| SessionAlreadyExists
| InvalidThreshold
| SessionNotFound
| InvalidShardIndex
| ShardSlotOccupied
| InvalidCiphertext
| ShardAlreadyVerified
| ProofVerificationFailed
| InvalidCleartextEncoding
| InvalidShardValue
| SessionAlreadyCompleted
deriving DecidableEq, Repr

/-- Pointwise map update (Solidity `m[k] = v`). -/
def upd {α : Type} [DecidableEq α] {β : Type} (f : α → β) (a : α) (b : β) : α → β :=
  fun x => if x = a then b else f x

/-- `true` exactly on a non-reverting call result. -/
def exOk {ε α : Type} : Except ε α → Bool
  | .ok _ => true
  | .error _ => false

/-- Post-state of a call: the new state on success, the unchanged
pre-state on revert. -/
def resultingState (r : Except Err (ContractState × List Event)) (s : ContractState) :
    ContractState :=
  match r with
  | .ok p => p.1
  | .error _ => s

/-- Events emitted by a call (a revert rolls all of them back). -/
def resultingEvents (r : Except Err (ContractState × List Event)) : List Event :=
  match r with
  | .ok p => p.2
  | .error _ => []

/-- `createSession` (README lines 182–209).  Session existence is decided
by `bytes(sessions[sessionId].name).length == 0`, i.e. by the stored
`name` being the empty string. -/
def createSession (s : ContractState) (sessionId name : String)
    (threshold totalShards publicValue1 publicValue2 : Nat)
    (description : String) (sender timestamp : Nat) :
    Except Err (ContractState × List Event) :=
  if (s.sessions sessionId).name ≠ "" then .error .SessionAlreadyExists
  else if ¬ (0 < threshold ∧ threshold ≤ totalShards) then .error .InvalidThreshold
  else .ok
    ({ s with
        sessions := upd s.sessions sessionId
          ⟨name, threshold, totalShards, publicValue1, publicValue2,
            description, sender, timestamp, 0, false⟩,
        sessionIds := s.sessionIds ++ [sessionId] },
      [.SessionCreated sessionId sender])

/-- `addShard` (README lines 211–234).  Slot occupancy is decided by
`sessionShards[sessionId][shardIndex].holder == address(0)`. -/
def addShard (env : FHEEnv) (s : ContractState) (sessionId : String)
    (shardIndex encryptedValue inputProof sender : Nat) :
    Except Err (ContractState × List Event) :=
  if (s.sessions sessionId).name = "" then .error .SessionNotFound
  else if (s.sessions sessionId).totalShards ≤ shardIndex then .error .InvalidShardIndex
  else if (s.sessionShards sessionId shardIndex).holder ≠ 0 then .error .ShardSlotOccupied
  else if env.isInit (env.fromExternal encryptedValue inputProof) = false then
    .error .InvalidCiphertext
  else .ok
    ({ s with
        sessionShards := upd s.sessionShards sessionId
          (upd (s.sessionShards sessionId) shardIndex
            ⟨env.fromExternal encryptedValue inputProof, sender, false⟩),
        shardCount := upd s.shardCount sessionId (s.shardCount sessionId + 1) },
      [.ShardAdded sessionId shardIndex sender])

/-- `getVerifiedShardCount` (README lines 262–270): counts the verified
shards of the `totalShards` slots.  The function has no
session-existence `require`; for an unknown id `totalShards` defaults to
`0` and the count is `0`. -/
def getVerifiedShardCount (s : ContractState) (sessionId : String) : Nat :=
  (List.range (s.sessions sessionId).totalShards).countP
    (fun i => (s.sessionShards sessionId i).isVerified)

/-- `combineShards` (README lines 282–294): XOR-fold, over the verified
slots, of the 32-bit cleartexts the external layer decrypts the stored
handles to. -/
def combineShards (s : ContractState) (sessionId : String) : Nat :=
  (List.range (s.sessions sessionId).totalShards).foldl
    (fun acc i =>
      if (s.sessionShards sessionId i).isVerified then
        acc ^^^ ((s.sessionShards sessionId i).encryptedValue % 2 ^ 32)
      else acc) 0

/-- `completeSession` (README lines 272–280), applied to the state after
the triggering shard was marked verified.  Its `require(!isComplete)`
reverts the whole enclosing `verifyShard` transaction. -/
def completeSession (s : ContractState) (sessionId : String) :
    Except Err (ContractState × List Event) :=
  if (s.sessions sessionId).isComplete then .error .SessionAlreadyCompleted
  else
    .ok
      ({ s with
          sessions := upd s.sessions sessionId
            { s.sessions sessionId with
                decryptedValue := combineShards s sessionId,
                isComplete := true } },
        [.SessionCompleted sessionId (combineShards s sessionId)])

/-- The single storage write of `verifyShard`:
`sessionShards[sessionId][shardIndex].isVerified = true`. -/
def markVerified (s : ContractState) (sessionId : String) (shardIndex : Nat) :
    ContractState :=
  { s with
      sessionShards := upd s.sessionShards sessionId
        (upd (s.sessionShards sessionId) shardIndex
          { s.sessionShards sessionId shardIndex with isVerified := true }) }

/-- `verifyShard` (README lines 236–260).  Note: the function checks the
session, the index and the `isVerified` flag, but never whether a shard
was actually added at the slot; `FHE.checkSignatures` is the delegated
proof check against the stored handle; `abi.decode(…, (uint32))` reverts
unless the payload is a clean 32-bit value; the decoded value must match
one of the two public candidate values; after marking the shard
verified, if the recounted verified total has reached `threshold` the
private `completeSession` runs (and its `require` reverts everything if
the session is already complete). -/
def verifyShard (env : FHEEnv) (s : ContractState) (sessionId : String)
    (shardIndex clearValue proof : Nat) :
    Except Err (ContractState × List Event) :=
  if (s.sessions sessionId).name = "" then .error .SessionNotFound
  else if (s.sessions sessionId).totalShards ≤ shardIndex then .error .InvalidShardIndex
  else if (s.sessionShards sessionId shardIndex).isVerified then .error .ShardAlreadyVerified
  else if env.checkSignatures (s.sessionShards sessionId shardIndex).encryptedValue
      clearValue proof = false then .error .ProofVerificationFailed
  else if 2 ^ 32 ≤ clearValue then .error .InvalidCleartextEncoding
  else if clearValue ≠ (s.sessions sessionId).publicValue1 ∧
      clearValue ≠ (s.sessions sessionId).publicValue2 then .error .InvalidShardValue
  else
    if (s.sessions sessionId).threshold ≤
        getVerifiedShardCount (markVerified s sessionId shardIndex) sessionId then
      match completeSession (markVerified s sessionId shardIndex) sessionId with
      | .ok (s2, evs2) => .ok (s2, .ShardVerified sessionId shardIndex :: evs2)
      | .error e => .error e
    else .ok (markVerified s sessionId shardIndex,
      [.ShardVerified sessionId shardIndex])

/-- `getShard` (README lines 296–301). -/
def getShard (s : ContractState) (sessionId : String) (shardIndex : Nat) :
    Except Err (Nat × Nat × Bool) :=
  if (s.sessions sessionId).name = "" then .error .SessionNotFound
  else if (s.sessions sessionId).totalShards ≤ shardIndex then .error .InvalidShardIndex
  else .ok ((s.sessionShards sessionId shardIndex).encryptedValue,
    (s.sessionShards sessionId shardIndex).holder,
    (s.sessionShards sessionId shardIndex).isVerified)

/-- `getSession` (README lines 303–329). -/
def getSession (s : ContractState) (sessionId : String) :
    Except Err (String × Nat × Nat × Nat × Nat × String × Nat × Nat × Bool × Nat) :=
  if (s.sessions sessionId).name = "" then .error .SessionNotFound
  else .ok ((s.sessions sessionId).name, (s.sessions sessionId).threshold,
    (s.sessions sessionId).totalShards, (s.sessions sessionId).publicValue1,
    (s.sessions sessionId).publicValue2, (s.sessions sessionId).description,
    (s.sessions sessionId).creator, (s.sessions sessionId).timestamp,
    (s.sessions sessionId).isComplete, (s.sessions sessionId).decryptedValue)

/-- `getAllSessionIds` (README lines 331–333). -/
def getAllSessionIds (s : ContractState) : List String :=
  s.sessionIds

/-- One external transaction against the contract. -/
inductive Op
| create (sessionId name : String) (threshold totalShards pv1 pv2 : Nat)
    (description : String) (sender timestamp : Nat)
| add (env : FHEEnv) (sessionId : String) (shardIndex encryptedValue inputProof sender : Nat)
| verify (env : FHEEnv) (sessionId : String) (shardIndex clearValue proof : Nat)

/-- Effect of one transaction on storage (a revert leaves storage
unchanged). -/
def applyOp (op : Op) (s : ContractState) : ContractState :=
  match op with
  | .create id nm th tot p1 p2 d sender ts =>
      resultingState (createSession s id nm th tot p1 p2 d sender ts) s
  | .add env id i ev pf sender =>
      resultingState (addShard env s id i ev pf sender) s
  | .verify env id i v pf =>
      resultingState (verifyShard env s id i v pf) s

/-- Storage after a transaction sequence run from deployment. -/
def runOps (ops : List Op) : ContractState :=
  ops.foldl (fun s op => applyOp op s) initialState

/-- States the deployed contract can actually be in. -/
inductive Reachable : ContractState → Prop
| init : Reachable initialState
| step (op : Op) {s : ContractState} : Reachable s → Reachable (applyOp op s)

/-- Revert reason of a call, if any. -/
def errOf {α : Type} (r : Except Err α) : Option Err :=
  match r with
  | .error e => some e
  | .ok _ => none

/-- `name = ""` at every session id and `isVerified = false` at every
shard slot it can reach: no shard state without a named session.  (Used
below as a reachability invariant.) -/
def NoPhantomShards (s : ContractState) : Prop :=
  ∀ id i, (s.sessions id).name = "" → s.sessionShards id i = defaultShard

/-- An FHE environment in which the external checks always pass: the
external handle decrypts to the submitted value and every decryption
proof verifies.  Used to run concrete scenarios. -/
def envAll : FHEEnv := ⟨fun e _ => e, fun _ => true, fun _ _ _ => true⟩

/-- A store holding one session `"s"` (threshold 1, 1 shard slot). -/
def st3 : ContractState := runOps [.create "s" "n" 1 1 7 42 "d" 1 0]

/-- Threshold-1 session with two added shards whose first shard was
verified, completing the session; shard 1 is present and unverified. -/
def stC1 : ContractState := runOps
  [.create "s" "n" 1 2 7 42 "d" 1 0,
   .add envAll "s" 0 7 0 2, .add envAll "s" 1 7 0 3,
   .verify envAll "s" 0 7 0]

/-- Threshold-2 session with two shard slots and no shard ever added. -/
def stC2 : ContractState := runOps [.create "s" "n" 2 2 7 42 "d" 1 0]

/-- Threshold-2 session where slot 0 was verified without ever being
added (the missing-shard-check quirk): `isVerified = true, holder = 0`. -/
def stC7A : ContractState := runOps
  [.create "s" "n" 2 2 7 42 "d" 1 0, .verify envAll "s" 0 7 0]

/-- `stC7A` after an `addShard` on the verified-but-never-added slot 0:
the slot passes the `holder == address(0)` occupancy check and is
overwritten, resetting `isVerified` to `false`. -/
def stC7B : ContractState := applyOp (.add envAll "s" 0 7 0 9) stC7A

/-- `stC7B` after verifying slot 0 a second time. -/
def stC7C : ContractState := applyOp (.verify envAll "s" 0 7 0) stC7B

/-- The README scenario: `threshold=3, totalShards=5, candidates 7/42`,
five shards added with cleartexts `[7,42,7,42,7]`. -/
def st6Pre : ContractState := runOps
  [.create "s" "w" 3 5 7 42 "d" 1 0,
   .add envAll "s" 0 7 0 11, .add envAll "s" 1 42 0 12, .add envAll "s" 2 7 0 13,
   .add envAll "s" 3 42 0 14, .add envAll "s" 4 7 0 15]

/-- `st6Pre` after verifying shard 0 (cleartext 7). -/
def st6A : ContractState := applyOp (.verify envAll "s" 0 7 0) st6Pre

/-- `st6A` after verifying shard 1 (cleartext 42). -/
def st6B : ContractState := applyOp (.verify envAll "s" 1 42 0) st6A

/-- `st6B` after verifying shard 2 (cleartext 7): the third verification. -/
def st6C : ContractState := applyOp (.verify envAll "s" 2 7 0) st6B

/-- XOR-fold with identity `0` — the spec's description of the
combination algorithm, for comparison with `combineShards`. -/
def xorFold (l : List Nat) : Nat := l.foldr (fun a b => a ^^^ b) 0

/-- Indices of the verified shard slots of a session. -/
def verifiedIndices (s : ContractState) (sessionId : String) : List Nat :=
  (List.range (s.sessions sessionId).totalShards).filter
    (fun i => (s.sessionShards sessionId i).isVerified)

/-- The 32-bit cleartext values of the verified shard slots. -/
def verifiedValues (s : ContractState) (sessionId : String) : List Nat :=
  (verifiedIndices s sessionId).map
    (fun i => (s.sessionShards sessionId i).encryptedValue % 2 ^ 32)

lemma upd_self {α : Type} [DecidableEq α] {β : Type} (f : α → β) (a : α) (b : β) :
    upd f a b a = b := by
  simp [ upd]

lemma upd_ne {α : Type} [DecidableEq α] {β : Type} (f : α → β) (a x : α) (b : β)
    (h : x ≠ a) : upd f a b x = f x := by
  simp [ upd, h]

lemma markVerified_sessions (s : ContractState) (sessionId : String) (shardIndex : Nat) :
    (markVerified s sessionId shardIndex).sessions = s.sessions := rfl

lemma markVerified_shard_self (s : ContractState) (sessionId : String) (shardIndex : Nat) :
    (markVerified s sessionId shardIndex).sessionShards sessionId shardIndex
      = { s.sessionShards sessionId shardIndex with isVerified := true } := by
  simp [markVerified, upd_self]

lemma completeSession_of_complete (s : ContractState) (sessionId : String)
    (h : (s.sessions sessionId).isComplete = true) :
    completeSession s sessionId = .error .SessionAlreadyCompleted := by
  simp [completeSession, h]

lemma count_le_count_markVerified (s : ContractState) (sessionId : String)
    (shardIndex : Nat) :
    getVerifiedShardCount s sessionId
      ≤ getVerifiedShardCount (markVerified s sessionId shardIndex) sessionId := by
  unfold getVerifiedShardCount
  rw [markVerified_sessions]
  apply List.countP_mono_left
  intro i _ hp
  by_cases hid : sessionId = sessionId
  · by_cases hi : i = shardIndex
    · subst hi
      simp [markVerified_shard_self]
    · simp [markVerified, upd_self, upd_ne _ _ _ _ hi, hp]
  · exact absurd rfl hid

lemma xorFold_cons (a : Nat) (l : List Nat) : xorFold (a :: l) = a ^^^ xorFold l := rfl

lemma foldl_xor_eq (v : Nat → Nat) (p : Nat → Bool) (l : List Nat) :
    ∀ a : Nat, l.foldl (fun acc i => if p i then acc ^^^ v i else acc) a
      = a ^^^ xorFold ((l.filter p).map v) := by
  induction l with
  | nil => intro a; simp [xorFold]
  | cons i l ih =>
    intro a
    by_cases h : p i = true
    · simp only [List.foldl_cons, if_pos h, List.filter_cons_of_pos h, List.map_cons,
        xorFold_cons, ih, Nat.xor_assoc]
    · simp only [List.foldl_cons, if_neg h, List.filter_cons_of_neg h, ih]

lemma combineShards_eq_xorFold (s : ContractState) (sessionId : String) :
    combineShards s sessionId = xorFold (verifiedValues s sessionId) := by
  unfold combineShards verifiedValues verifiedIndices
  rw [foldl_xor_eq (fun i => (s.sessionShards sessionId i).encryptedValue % 2 ^ 32)
    (fun i => (s.sessionShards sessionId i).isVerified)]
  simp

lemma xorFold_perm (l₁ l₂ : List Nat) (h : l₁.Perm l₂) : xorFold l₁ = xorFold l₂ := by
  induction h with
  | nil => rfl
  | cons x _ ih => simp [xorFold_cons, ih]
  | swap x y l => simp [xorFold_cons, ← Nat.xor_assoc, Nat.xor_comm x y]
  | trans _ _ ih₁ ih₂ => exact ih₁.trans ih₂

lemma noPhantom_initial : NoPhantomShards initialState := fun _ _ _ => rfl

lemma resultingState_ok (p : ContractState × List Event) (s : ContractState) :
    resultingState (.ok p) s = p.1 := rfl

lemma noPhantom_applyOp (op : Op) (s : ContractState) (h : NoPhantomShards s) :
    NoPhantomShards (applyOp op s) := by
  cases op with
  | create sid nm th tot p1 p2 d sender ts =>
    simp only [applyOp]
    cases hcr : createSession s sid nm th tot p1 p2 d sender ts with
    | error e => exact h
    | ok p =>
      simp only [createSession] at hcr
      split at hcr
      · exact absurd hcr (by simp)
      · split at hcr
        · exact absurd hcr (by simp)
        · rename_i hname _
          cases hcr
          simp only [resultingState_ok]
          intro id i hid
          by_cases hids : id = sid
          · subst hids
            exact h id i (by simpa using hname)
          · exact h id i (by simpa [upd_ne _ _ _ _ hids] using hid)
  | add env sid idx ev pf sender =>
    simp only [applyOp]
    cases hcr : addShard env s sid idx ev pf sender with
    | error e => exact h
    | ok p =>
      simp only [addShard] at hcr
      split at hcr
      · exact absurd hcr (by simp)
      · split at hcr
        · exact absurd hcr (by simp)
        · split at hcr
          · exact absurd hcr (by simp)
          · split at hcr
            · exact absurd hcr (by simp)
            · rename_i hname _ _ _
              cases hcr
              simp only [resultingState_ok]
              intro id i hid
              have hids : id ≠ sid := by
                intro heq; subst heq; exact hname hid
              simpa [upd_ne _ _ _ _ hids] using h id i hid
  | verify env sid idx v pf =>
    simp only [applyOp]
    cases hcr : verifyShard env s sid idx v pf with
    | error e => exact h
    | ok p =>
      simp only [verifyShard] at hcr
      split at hcr
      · exact absurd hcr (by simp)
      · split at hcr
        · exact absurd hcr (by simp)
        · split at hcr
          · exact absurd hcr (by simp)
          · split at hcr
            · exact absurd hcr (by simp)
            · split at hcr
              · exact absurd hcr (by simp)
              · split at hcr
                · exact absurd hcr (by simp)
                · rename_i hname _ _ _ _ _
                  split at hcr
                  · split at hcr
                    · rename_i s2 evs2 hcs
                      simp only [completeSession] at hcs
                      split at hcs
                      · exact absurd hcs (by simp)
                      · cases hcs
                        cases hcr
                        simp only [resultingState_ok]
                        intro id i hid
                        have hids : id ≠ sid := by
                          intro heq; subst heq
                          simp only [markVerified, upd_self] at hid
                          exact hname hid
                        simp only [markVerified] at hid ⊢
                        simp only [upd_ne _ _ _ _ hids] at hid
                        simpa [upd_ne _ _ _ _ hids] using h id i hid
                    · exact absurd hcr (by simp)
                  · cases hcr
                    simp only [resultingState_ok]
                    intro id i hid
                    have hids : id ≠ sid := by
                      intro heq; subst heq
                      exact hname (by simpa [markVerified] using hid)
                    simp only [markVerified] at hid ⊢
                    simpa [upd_ne _ _ _ _ hids] using h id i (by simpa using hid)
lemma noPhantom_reachable (s : ContractState) (h : Reachable s) : NoPhantomShards s := by
  induction h with
  | init => exact noPhantom_initial
  | step op _ ih => exact noPhantom_applyOp _ _ ih

/-- C6: In the concrete run with `threshold=3, totalShards=5,
candidateValue1=7, candidateValue2=42`, five shards added with
cleartexts `[7,42,7,42,7]` and indices 0, 1, 2 verified in that order:
the first two verifications succeed and leave the session incomplete,
and the third verification completes the session with
`reconstructedValue = 7 XOR 42 XOR 7 = 42`, emitting
`SessionCompleted`. -/
theorem scenario_threshold_three :
    exOk (verifyShard envAll st6Pre "s" 0 7 0) = true ∧
    (st6A.sessions "s").isComplete = false ∧
    exOk (verifyShard envAll st6A "s" 1 42 0) = true ∧
    (st6B.sessions "s").isComplete = false ∧
    resultingEvents (verifyShard envAll st6B "s" 2 7 0)
      = [.ShardVerified "s" 2, .SessionCompleted "s" 42] ∧
    (st6C.sessions "s").isComplete = true ∧
    (st6C.sessions "s").decryptedValue = 42 ∧
    (7 ^^^ 42) ^^^ 7 = 42 := by
  decide

/-- C3: A `createSession` on a session id whose stored record has a
nonempty `name` (the contract's notion of the id being taken) reverts
with `SessionAlreadyExists`, so it creates nothing, appends nothing to
`sessionIds`, and leaves the first session's data unchanged. -/
theorem create_duplicate_fails (s : ContractState) (sessionId name : String)
    (th tot p1 p2 : Nat) (d : String) (sender ts : Nat)
    (h : (s.sessions sessionId).name ≠ "") :
    createSession s sessionId name th tot p1 p2 d sender ts
      = .error .SessionAlreadyExists ∧
    resultingState (createSession s sessionId name th tot p1 p2 d sender ts) s = s := by
  have he : createSession s sessionId name th tot p1 p2 d sender ts
      = .error .SessionAlreadyExists := by
    simp [createSession, h]
  exact ⟨he, by rw [he]; rfl⟩

/-- C3 witness: on a store holding session `"s"` (created with name
`"n"`), a second create of `"s"` reverts with `SessionAlreadyExists`
and leaves the store untouched. -/
theorem create_duplicate_fails_w :
    createSession st3 "s" "x" 1 1 0 0 "" 2 5 = .error .SessionAlreadyExists ∧
    resultingState (createSession st3 "s" "x" 1 1 0 0 "" 2 5) st3 = st3 :=
  create_duplicate_fails st3 "s" "x" 1 1 0 0 "" 2 5 (by decide)

/-- C4: A `verifyShard` whose decoded 32-bit cleartext equals neither
`publicValue1` nor `publicValue2` reverts with `InvalidShardValue`,
even when the delegated signature check accepts the proof; the revert
leaves the whole state (shard flag, verified count, completion status)
unchanged. -/
theorem verify_noncandidate_rejected (env : FHEEnv) (s : ContractState)
    (sessionId : String) (idx v pf : Nat)
    (hname : (s.sessions sessionId).name ≠ "")
    (hidx : idx < (s.sessions sessionId).totalShards)
    (hver : (s.sessionShards sessionId idx).isVerified = false)
    (hsig : env.checkSignatures (s.sessionShards sessionId idx).encryptedValue v pf = true)
    (hv : v < 2 ^ 32)
    (h1 : v ≠ (s.sessions sessionId).publicValue1)
    (h2 : v ≠ (s.sessions sessionId).publicValue2) :
    verifyShard env s sessionId idx v pf = .error .InvalidShardValue ∧
    resultingState (verifyShard env s sessionId idx v pf) s = s := by
  have he : verifyShard env s sessionId idx v pf = .error .InvalidShardValue := by
    simp [verifyShard, hname, hver, hsig, h1, h2, Nat.not_le.mpr hidx]
    omega
  exact ⟨he, by rw [he]; rfl⟩

/-- C4 witness: in the five-shard scenario store, verifying shard 1
with decoded value `13` (neither 7 nor 42) under an
accept-everything proof oracle reverts with `InvalidShardValue`. -/
theorem verify_noncandidate_rejected_w :
    verifyShard envAll st6A "s" 1 13 0 = .error .InvalidShardValue ∧
    resultingState (verifyShard envAll st6A "s" 1 13 0) st6A = st6A :=
  verify_noncandidate_rejected envAll st6A "s" 1 13 0 (by decide) (by decide)
    (by decide) (by decide) (by decide) (by decide) (by decide)

/-- C5: The combination algorithm is the XOR-fold (identity 0) over the
verified shard cleartexts: `combineShards` equals `xorFold` of
`verifiedValues`; it returns 0 when no shard is verified; `xorFold` is
invariant under permutation of its input, and XOR is commutative and
associative with identity 0; and any two states that agree on the
session's shard table (as reached by any two verification orders with
the same final verified set) get the same reconstructed value. -/
theorem combine_is_xor_fold :
    (∀ s sessionId, combineShards s sessionId = xorFold (verifiedValues s sessionId)) ∧
    (∀ s sessionId, (∀ i, (s.sessionShards sessionId i).isVerified = false) →
      combineShards s sessionId = 0) ∧
    (∀ l₁ l₂ : List Nat, l₁.Perm l₂ → xorFold l₁ = xorFold l₂) ∧
    (∀ a b : Nat, a ^^^ b = b ^^^ a) ∧
    (∀ a b c : Nat, a ^^^ b ^^^ c = a ^^^ (b ^^^ c)) ∧
    xorFold [] = 0 ∧
    (∀ s₁ s₂ sessionId,
      (s₁.sessions sessionId).totalShards = (s₂.sessions sessionId).totalShards →
      (∀ i, s₁.sessionShards sessionId i = s₂.sessionShards sessionId i) →
      combineShards s₁ sessionId = combineShards s₂ sessionId) := by
  refine ⟨combineShards_eq_xorFold, ?_, xorFold_perm, Nat.xor_comm, Nat.xor_assoc, rfl, ?_⟩
  · intro s sessionId hv
    rw [combineShards_eq_xorFold]
    unfold verifiedValues verifiedIndices
    have hnil : (List.range (s.sessions sessionId).totalShards).filter
        (fun i => (s.sessionShards sessionId i).isVerified) = [] :=
      List.filter_eq_nil_iff.mpr (fun a _ => by simp [hv a])
    rw [hnil]
    rfl
  · intro s₁ s₂ sessionId htot hsh
    unfold combineShards
    rw [htot]
    have hfun : (fun (acc : Nat) (i : Nat) =>
        if (s₁.sessionShards sessionId i).isVerified then
          acc ^^^ ((s₁.sessionShards sessionId i).encryptedValue % 2 ^ 32)
        else acc)
      = (fun (acc : Nat) (i : Nat) =>
        if (s₂.sessionShards sessionId i).isVerified then
          acc ^^^ ((s₂.sessionShards sessionId i).encryptedValue % 2 ^ 32)
        else acc) := by
      funext acc i
      rw [hsh i]
    rw [hfun]

/-- C5 witness: with no shard verified (the freshly deployed store),
the combination returns the XOR identity 0. -/
theorem combine_is_xor_fold_w :
    combineShards initialState "q" = 0 ∧ xorFold [7, 42, 7] = 42 :=
  ⟨combine_is_xor_fold.2.1 initialState "q" (fun _ => rfl), by decide⟩

/-- C10: The contract decides session existence solely by whether the
stored `name` is the empty string: for a valid threshold,
`createSession` succeeds exactly when the stored name is empty — and
then overwrites whatever record was stored — while `addShard`,
`verifyShard` and `getSession` all revert with `SessionNotFound` when
the stored name is empty; a session created with an empty name is
therefore silently replaceable and unreachable by every other
operation. -/
theorem session_existence_by_empty_name :
    (∀ s sessionId nm th tot p1 p2 d sender ts, 0 < th → th ≤ tot →
      (exOk (createSession s sessionId nm th tot p1 p2 d sender ts) = true ↔
        (s.sessions sessionId).name = "")) ∧
    (∀ s sessionId nm th tot p1 p2 d sender ts,
      (s.sessions sessionId).name = "" → 0 < th → th ≤ tot →
      (resultingState (createSession s sessionId nm th tot p1 p2 d sender ts) s).sessions
          sessionId
        = ⟨nm, th, tot, p1, p2, d, sender, ts, 0, false⟩) ∧
    (∀ env s sessionId idx ev pf sender, (s.sessions sessionId).name = "" →
      addShard env s sessionId idx ev pf sender = .error .SessionNotFound) ∧
    (∀ env s sessionId idx v pf, (s.sessions sessionId).name = "" →
      verifyShard env s sessionId idx v pf = .error .SessionNotFound) ∧
    (∀ s sessionId, (s.sessions sessionId).name = "" →
      getSession s sessionId = .error .SessionNotFound) := by
  refine ⟨?_, ?_, ?_, ?_, ?_⟩
  · intro s sessionId nm th tot p1 p2 d sender ts h0 h1
    constructor
    · intro hok
      by_contra hne
      simp [createSession, hne, exOk] at hok
    · intro hemp
      simp [createSession, hemp, h0, h1, exOk]
  · intro s sessionId nm th tot p1 p2 d sender ts hemp h0 h1
    simp [createSession, hemp, h0, h1, resultingState_ok, upd_self]
  · intro env s sessionId idx ev pf sender hemp
    simp [addShard, hemp]
  · intro env s sessionId idx v pf hemp
    simp [verifyShard, hemp]
  · intro s sessionId hemp
    simp [getSession, hemp]

/-- C10 witness: on the fresh store (every stored name empty), creating
session `"q"` succeeds, while `addShard`, `verifyShard` and
`getSession` on `"q"` all revert with `SessionNotFound`. -/
theorem session_existence_by_empty_name_w :
    exOk (createSession initialState "q" "nm" 1 1 0 0 "" 2 3) = true ∧
    addShard envAll initialState "q" 0 0 0 1 = .error .SessionNotFound ∧
    verifyShard envAll initialState "q" 0 0 0 = .error .SessionNotFound ∧
    getSession initialState "q" = .error .SessionNotFound :=
  ⟨(session_existence_by_empty_name.1 initialState "q" "nm" 1 1 0 0 "" 2 3
      (by decide) (by decide)).mpr rfl,
   session_existence_by_empty_name.2.2.1 envAll initialState "q" 0 0 0 1 rfl,
   session_existence_by_empty_name.2.2.2.1 envAll initialState "q" 0 0 0 rfl,
   session_existence_by_empty_name.2.2.2.2 initialState "q" rfl⟩

/-- C9 (corrected): `getSession`, `getShard`, `getAllSessionIds` and
`getVerifiedShardCount` are pure reads (they return values and never
mutate state — in this embedding they do not even produce a new state);
`getSession` and `getShard` revert with `SessionNotFound` on a session
whose stored name is empty, but `getVerifiedShardCount` has no
existence check at all: on any reachable state it simply returns 0 for
a nonexistent session instead of failing. -/
theorem queries_pure_reads :
    (∀ s sessionId, (s.sessions sessionId).name = "" →
      getSession s sessionId = .error .SessionNotFound) ∧
    (∀ s sessionId idx, (s.sessions sessionId).name = "" →
      getShard s sessionId idx = .error .SessionNotFound) ∧
    (∀ s sessionId, Reachable s → (s.sessions sessionId).name = "" →
      getVerifiedShardCount s sessionId = 0) ∧
    (∀ s, getAllSessionIds s = s.sessionIds) := by
  refine ⟨?_, ?_, ?_, fun _ => rfl⟩
  · intro s sessionId hemp
    simp [getSession, hemp]
  · intro s sessionId idx hemp
    simp [getShard, hemp]
  · intro s sessionId hr hemp
    have hnp := noPhantom_reachable s hr
    unfold getVerifiedShardCount
    rw [List.countP_eq_zero]
    intro i _
    rw [hnp sessionId i hemp]
    simp [defaultShard]

/-- C9 counterexample: on the fresh store, session `"q"` does not exist
(stored name is empty) and yet `getVerifiedShardCount` does not fail
with `SessionNotFound` — it returns the value 0 (the function has no
existence `require`; `totalShards` defaults to 0). -/
theorem count_missing_session_returns_value_cex :
    (initialState.sessions "q").name = "" ∧
    getVerifiedShardCount initialState "q" = 0 := by
  decide

/-- C9 witness: the fresh store is reachable, session `"q"` has an
empty stored name there, and the three query conclusions hold at it. -/
theorem queries_pure_reads_w :
    getSession initialState "q" = .error .SessionNotFound ∧
    getShard initialState "q" 0 = .error .SessionNotFound ∧
    getVerifiedShardCount initialState "q" = 0 :=
  ⟨queries_pure_reads.1 initialState "q" rfl,
   queries_pure_reads.2.1 initialState "q" 0 rfl,
   queries_pure_reads.2.2.1 initialState "q" Reachable.init rfl⟩

/-- C7 (corrected): verifying an already-verified shard reverts with
`ShardAlreadyVerified` and leaves all state unchanged (no double count,
no re-completion — retrying is safe); and for a shard slot with a
nonzero `holder` (one actually added), `isVerified` never reverts to
`false` under any contract operation.  (For a slot verified without
ever being added — `holder = 0` — the flag is not monotone: `addShard`
can overwrite it; see the counterexample.) -/
theorem reverify_fails :
    (∀ env s sessionId idx v pf,
      (s.sessions sessionId).name ≠ "" →
      idx < (s.sessions sessionId).totalShards →
      (s.sessionShards sessionId idx).isVerified = true →
      verifyShard env s sessionId idx v pf = .error .ShardAlreadyVerified ∧
      resultingState (verifyShard env s sessionId idx v pf) s = s) ∧
    (∀ op s sessionId idx,
      (s.sessionShards sessionId idx).holder ≠ 0 →
      (s.sessionShards sessionId idx).isVerified = true →
      ((applyOp op s).sessionShards sessionId idx).isVerified = true) := by
  constructor
  · intro env s sessionId idx v pf hname hidx hver
    have he : verifyShard env s sessionId idx v pf = .error .ShardAlreadyVerified := by
      unfold verifyShard
      rw [if_neg hname, if_neg (Nat.not_le.mpr hidx), if_pos hver]
    exact ⟨he, by rw [he]; rfl⟩
  · intro op s sessionId idx hholder hver
    cases op with
    | create sid nm th tot p1 p2 d sender ts =>
      simp only [applyOp]
      cases hcr : createSession s sid nm th tot p1 p2 d sender ts with
      | error e => exact hver
      | ok p =>
        simp only [createSession] at hcr
        split at hcr
        · exact absurd hcr (by simp)
        · split at hcr
          · exact absurd hcr (by simp)
          · cases hcr
            exact hver
    | add env sid idx2 ev pf sender =>
      simp only [applyOp]
      cases hcr : addShard env s sid idx2 ev pf sender with
      | error e => exact hver
      | ok p =>
        simp only [addShard] at hcr
        split at hcr
        · exact absurd hcr (by simp)
        · split at hcr
          · exact absurd hcr (by simp)
          · split at hcr
            · exact absurd hcr (by simp)
            · split at hcr
              · exact absurd hcr (by simp)
              · rename_i h0 _
                cases hcr
                simp only [resultingState_ok]
                by_cases hid : sessionId = sid
                · subst hid
                  by_cases hi : idx = idx2
                  · subst hi
                    exact absurd (by simpa using h0) hholder
                  · simpa [upd_self, upd_ne _ _ _ _ hi] using hver
                · simpa [upd_ne _ _ _ _ hid] using hver
    | verify env sid idx2 v pf =>
      simp only [applyOp]
      cases hcr : verifyShard env s sid idx2 v pf with
      | error e => exact hver
      | ok p =>
        simp only [verifyShard] at hcr
        split at hcr
        · exact absurd hcr (by simp)
        · split at hcr
          · exact absurd hcr (by simp)
          · split at hcr
            · exact absurd hcr (by simp)
            · split at hcr
              · exact absurd hcr (by simp)
              · split at hcr
                · exact absurd hcr (by simp)
                · split at hcr
                  · exact absurd hcr (by simp)
                  · split at hcr
                    · split at hcr
                      · rename_i s2 evs2 hcs
                        simp only [completeSession] at hcs
                        split at hcs
                        · exact absurd hcs (by simp)
                        · cases hcs
                          cases hcr
                          simp only [resultingState_ok]
                          by_cases hid : sessionId = sid
                          · subst hid
                            by_cases hi : idx = idx2
                            · subst hi
                              simp [markVerified, upd_self]
                            · simpa [markVerified, upd_self, upd_ne _ _ _ _ hi] using hver
                          · simpa [markVerified, upd_ne _ _ _ _ hid] using hver
                      · exact absurd hcr (by simp)
                    · cases hcr
                      simp only [resultingState_ok]
                      by_cases hid : sessionId = sid
                      · subst hid
                        by_cases hi : idx = idx2
                        · subst hi
                          simp [markVerified, upd_self]
                        · simpa [markVerified, upd_self, upd_ne _ _ _ _ hi] using hver
                      · simpa [markVerified, upd_ne _ _ _ _ hid] using hver

/-- C7 counterexample: `isVerified` is not one-way.  Slot 0 of session
`"s"` is verified without ever being added (`holder = 0`); `addShard`
then succeeds on the occupancy check `holder == address(0)` and
overwrites the slot, resetting `isVerified` to `false`; a second
`verifyShard` sets it to `true` again — the false→true transition
happens twice for the same slot. -/
theorem isVerified_reverts_cex :
    (stC7A.sessionShards "s" 0).isVerified = true ∧
    (stC7A.sessionShards "s" 0).holder = 0 ∧
    exOk (addShard envAll stC7A "s" 0 7 0 9) = true ∧
    (stC7B.sessionShards "s" 0).isVerified = false ∧
    (stC7C.sessionShards "s" 0).isVerified = true := by
  decide

/-- C7 witness: in the five-shard scenario store with shard 0 already
verified, re-verifying shard 0 reverts with `ShardAlreadyVerified` and
leaves the store untouched; and an `addShard` transaction preserves the
verified flag of the occupied, verified slot 0. -/
theorem reverify_fails_w :
    (verifyShard envAll st6A "s" 0 7 0 = .error .ShardAlreadyVerified ∧
      resultingState (verifyShard envAll st6A "s" 0 7 0) st6A = st6A) ∧
    ((applyOp (.add envAll "s" 0 7 0 99) st6A).sessionShards "s" 0).isVerified = true :=
  ⟨reverify_fails.1 envAll st6A "s" 0 7 0 (by decide) (by decide) (by decide),
   reverify_fails.2 (.add envAll "s" 0 7 0 99) st6A "s" 0 (by decide) (by decide)⟩

/-- C8: shard slots are write-once for real senders.  On an occupied
slot (`holder ≠ 0`) of an existing session, `addShard` reverts with
`ShardSlotOccupied` and leaves the stored shard (ciphertext, holder,
verified flag) and all other state unchanged; no contract operation
ever changes the `holder` or the `encryptedValue` of an occupied slot;
and a successful `addShard` requires the slot to have been unoccupied
and records the sender as holder — so with nonzero senders at most one
`addShard` ever succeeds per `(sessionId, shardIndex)`. -/
theorem shard_slot_write_once :
    (∀ env s sessionId idx ev pf sender,
      (s.sessions sessionId).name ≠ "" →
      idx < (s.sessions sessionId).totalShards →
      (s.sessionShards sessionId idx).holder ≠ 0 →
      addShard env s sessionId idx ev pf sender = .error .ShardSlotOccupied ∧
      resultingState (addShard env s sessionId idx ev pf sender) s = s) ∧
    (∀ op s sessionId idx,
      (s.sessionShards sessionId idx).holder ≠ 0 →
      ((applyOp op s).sessionShards sessionId idx).holder
          = (s.sessionShards sessionId idx).holder ∧
      ((applyOp op s).sessionShards sessionId idx).encryptedValue
          = (s.sessionShards sessionId idx).encryptedValue) ∧
    (∀ env s sessionId idx ev pf sender s' evs,
      addShard env s sessionId idx ev pf sender = .ok (s', evs) →
      (s.sessionShards sessionId idx).holder = 0 ∧
      (s'.sessionShards sessionId idx).holder = sender) := by
  refine ⟨?_, ?_, ?_⟩
  · intro env s sessionId idx ev pf sender hname hidx hholder
    have he : addShard env s sessionId idx ev pf sender = .error .ShardSlotOccupied := by
      unfold addShard
      rw [if_neg hname, if_neg (Nat.not_le.mpr hidx), if_pos hholder]
    exact ⟨he, by rw [he]; rfl⟩
  · intro op s sessionId idx hholder
    cases op with
    | create sid nm th tot p1 p2 d sender ts =>
      simp only [applyOp]
      cases hcr : createSession s sid nm th tot p1 p2 d sender ts with
      | error e => exact ⟨rfl, rfl⟩
      | ok p =>
        simp only [createSession] at hcr
        split at hcr
        · exact absurd hcr (by simp)
        · split at hcr
          · exact absurd hcr (by simp)
          · cases hcr
            exact ⟨rfl, rfl⟩
    | add env sid idx2 ev pf sender =>
      simp only [applyOp]
      cases hcr : addShard env s sid idx2 ev pf sender with
      | error e => exact ⟨rfl, rfl⟩
      | ok p =>
        simp only [addShard] at hcr
        split at hcr
        · exact absurd hcr (by simp)
        · split at hcr
          · exact absurd hcr (by simp)
          · split at hcr
            · exact absurd hcr (by simp)
            · split at hcr
              · exact absurd hcr (by simp)
              · rename_i h0 _
                cases hcr
                simp only [resultingState_ok]
                by_cases hid : sessionId = sid
                · subst hid
                  by_cases hi : idx = idx2
                  · subst hi
                    exact absurd (by simpa using h0) hholder
                  · constructor <;> simp [upd_self, upd_ne _ _ _ _ hi]
                · constructor <;> simp [upd_ne _ _ _ _ hid]
    | verify env sid idx2 v pf =>
      simp only [applyOp]
      cases hcr : verifyShard env s sid idx2 v pf with
      | error e => exact ⟨rfl, rfl⟩
      | ok p =>
        simp only [verifyShard] at hcr
        split at hcr
        · exact absurd hcr (by simp)
        · split at hcr
          · exact absurd hcr (by simp)
          · split at hcr
            · exact absurd hcr (by simp)
            · split at hcr
              · exact absurd hcr (by simp)
              · split at hcr
                · exact absurd hcr (by simp)
                · split at hcr
                  · exact absurd hcr (by simp)
                  · split at hcr
                    · split at hcr
                      · rename_i s2 evs2 hcs
                        simp only [completeSession] at hcs
                        split at hcs
                        · exact absurd hcs (by simp)
                        · cases hcs
                          cases hcr
                          simp only [resultingState_ok]
                          by_cases hid : sessionId = sid
                          · subst hid
                            by_cases hi : idx = idx2
                            · subst hi
                              constructor <;> simp [markVerified, upd_self]
                            · constructor <;>
                                simp [markVerified, upd_self, upd_ne _ _ _ _ hi]
                          · constructor <;> simp [markVerified, upd_ne _ _ _ _ hid]
                      · exact absurd hcr (by simp)
                    · cases hcr
                      simp only [resultingState_ok]
                      by_cases hid : sessionId = sid
                      · subst hid
                        by_cases hi : idx = idx2
                        · subst hi
                          constructor <;> simp [markVerified, upd_self]
                        · constructor <;>
                            simp [markVerified, upd_self, upd_ne _ _ _ _ hi]
                      · constructor <;> simp [markVerified, upd_ne _ _ _ _ hid]
  · intro env s sessionId idx ev pf sender s' evs heq
    simp only [addShard] at heq
    split at heq
    · exact absurd heq (by simp)
    · split at heq
      · exact absurd heq (by simp)
      · split at heq
        · exact absurd heq (by simp)
        · split at heq
          · exact absurd heq (by simp)
          · rename_i h0 _
            simp only [Except.ok.injEq, Prod.mk.injEq] at heq
            obtain ⟨hs, he⟩ := heq
            subst hs
            exact ⟨by simpa using h0, by simp [upd_self]⟩

/-- C8 witness: slot 0 of session `"s"` is occupied by holder 11;
a second `addShard` by sender 99 reverts with `ShardSlotOccupied` and
leaves the store untouched; a `verifyShard` transaction preserves the
slot's holder and ciphertext; and the original `addShard` that filled
slot 4 required the slot to be unoccupied and recorded sender 15. -/
theorem shard_slot_write_once_w :
    (addShard envAll st6Pre "s" 0 7 0 99 = .error .ShardSlotOccupied ∧
      resultingState (addShard envAll st6Pre "s" 0 7 0 99) st6Pre = st6Pre) ∧
    (((applyOp (.verify envAll "s" 0 7 0) st6Pre).sessionShards "s" 0).holder
        = (st6Pre.sessionShards "s" 0).holder ∧
      ((applyOp (.verify envAll "s" 0 7 0) st6Pre).sessionShards "s" 0).encryptedValue
        = (st6Pre.sessionShards "s" 0).encryptedValue) :=
  ⟨shard_slot_write_once.1 envAll st6Pre "s" 0 7 0 99 (by decide) (by decide) (by decide),
   shard_slot_write_once.2.1 (.verify envAll "s" 0 7 0) st6Pre "s" 0 (by decide)⟩

/-- C2 (corrected): `verifyShard` performs no shard-existence check.
On a slot at which no shard was ever added (the default record:
`holder = 0`, handle 0, unverified), a `verifyShard` whose proof the
delegated oracle accepts for the default handle and whose value matches
a candidate does not revert at all — below threshold it succeeds,
marking the never-added slot verified while its holder stays 0. -/
theorem verify_missing_shard_no_check (env : FHEEnv) (s : ContractState)
    (sessionId : String) (idx v pf : Nat)
    (hname : (s.sessions sessionId).name ≠ "")
    (hidx : idx < (s.sessions sessionId).totalShards)
    (hdef : s.sessionShards sessionId idx = defaultShard)
    (hsig : env.checkSignatures 0 v pf = true)
    (hv : v < 2 ^ 32)
    (hcand : v = (s.sessions sessionId).publicValue1 ∨
      v = (s.sessions sessionId).publicValue2)
    (hth : getVerifiedShardCount (markVerified s sessionId idx) sessionId
      < (s.sessions sessionId).threshold) :
    verifyShard env s sessionId idx v pf
      = .ok (markVerified s sessionId idx, [.ShardVerified sessionId idx]) ∧
    ((markVerified s sessionId idx).sessionShards sessionId idx).isVerified = true ∧
    ((markVerified s sessionId idx).sessionShards sessionId idx).holder = 0 := by
  have hver : (s.sessionShards sessionId idx).isVerified = false := by rw [hdef]; rfl
  have henc : (s.sessionShards sessionId idx).encryptedValue = 0 := by rw [hdef]; rfl
  have hnand : ¬ (v ≠ (s.sessions sessionId).publicValue1 ∧
      v ≠ (s.sessions sessionId).publicValue2) := by tauto
  refine ⟨?_, ?_, ?_⟩
  · unfold verifyShard
    rw [if_neg hname, if_neg (Nat.not_le.mpr hidx), if_neg (by simp [hver]),
      if_neg (by simp [henc, hsig]), if_neg (Nat.not_le.mpr hv), if_neg hnand,
      if_neg (Nat.not_le.mpr hth)]
  · rw [markVerified_shard_self]
  · rw [markVerified_shard_self, hdef]; rfl

/-- C2 counterexample: session `"s"` exists with two slots and no shard
was ever added; verifying slot 0 (accepting oracle, candidate value 7)
does not revert — there is no `ShardNotFound` failure — and the state
changes: the never-added slot 0 becomes verified. -/
theorem verify_missing_shard_succeeds_cex :
    stC2.sessionShards "s" 0 = defaultShard ∧
    exOk (verifyShard envAll stC2 "s" 0 7 0) = true ∧
    ((resultingState (verifyShard envAll stC2 "s" 0 7 0) stC2).sessionShards "s" 0).isVerified
      = true := by
  decide

/-- C2 witness: the corrected behaviour at the concrete store `stC2`:
verifying the never-added slot 0 with value 7 succeeds and marks it
verified with holder 0. -/
theorem verify_missing_shard_no_check_w :
    verifyShard envAll stC2 "s" 0 7 0
      = .ok (markVerified stC2 "s" 0, [.ShardVerified "s" 0]) ∧
    ((markVerified stC2 "s" 0).sessionShards "s" 0).isVerified = true ∧
    ((markVerified stC2 "s" 0).sessionShards "s" 0).holder = 0 :=
  verify_missing_shard_no_check envAll stC2 "s" 0 7 0 (by decide) (by decide)
    (by decide) (by decide) (by decide) (Or.inl (by decide)) (by decide)

/-- C1 (corrected): completion occurs exactly once, at the verification
that makes the verified count cross `threshold` — but once the session
is complete, a further `verifyShard` does not quietly skip completion:
whenever the verified count is still at least `threshold` (always the
case in normal operation) the renewed `completeSession` call hits its
`require(!isComplete)` and the whole transaction reverts, so the shard
is not marked verified and nothing changes; in every case no
`verifyShard` on a complete session ever changes `decryptedValue` or
re-emits `SessionCompleted`, and a successful `verifyShard` emits
`SessionCompleted` exactly when it transitions the session from
incomplete to complete. -/
theorem completion_exactly_once :
    (∀ env s sessionId idx v pf,
      (s.sessions sessionId).isComplete = true →
      (s.sessions sessionId).threshold ≤ getVerifiedShardCount s sessionId →
      exOk (verifyShard env s sessionId idx v pf) = false) ∧
    (∀ env s sessionId idx v pf s' evs,
      (s.sessions sessionId).isComplete = true →
      verifyShard env s sessionId idx v pf = .ok (s', evs) →
      (s'.sessions sessionId).isComplete = true ∧
      (s'.sessions sessionId).decryptedValue = (s.sessions sessionId).decryptedValue ∧
      ∀ x, Event.SessionCompleted sessionId x ∉ evs) ∧
    (∀ env s sessionId idx v pf s' evs,
      verifyShard env s sessionId idx v pf = .ok (s', evs) →
      (((s.sessions sessionId).isComplete = false ∧
          (s'.sessions sessionId).isComplete = true) ↔
        Event.SessionCompleted sessionId ((s'.sessions sessionId).decryptedValue) ∈ evs)) := by
  refine ⟨?_, ?_, ?_⟩
  · intro env s sessionId idx v pf hc hcount
    unfold verifyShard
    split
    · rfl
    split
    · rfl
    split
    · rfl
    split
    · rfl
    split
    · rfl
    split
    · rfl
    have hle : (s.sessions sessionId).threshold
        ≤ getVerifiedShardCount (markVerified s sessionId idx) sessionId :=
      le_trans hcount (count_le_count_markVerified s sessionId idx)
    rw [if_pos hle, completeSession_of_complete (markVerified s sessionId idx) sessionId hc]
    rfl
  · intro env s sessionId idx v pf s' evs hc heq
    simp only [verifyShard] at heq
    split at heq
    · exact absurd heq (by simp)
    · split at heq
      · exact absurd heq (by simp)
      · split at heq
        · exact absurd heq (by simp)
        · split at heq
          · exact absurd heq (by simp)
          · split at heq
            · exact absurd heq (by simp)
            · split at heq
              · exact absurd heq (by simp)
              · split at heq
                · rw [completeSession_of_complete (markVerified s sessionId idx)
                    sessionId hc] at heq
                  exact absurd heq (by simp)
                · simp only [Except.ok.injEq, Prod.mk.injEq] at heq
                  obtain ⟨hs, he⟩ := heq
                  subst hs
                  subst he
                  exact ⟨hc, rfl, by intro x; simp⟩
  · intro env s sessionId idx v pf s' evs heq
    simp only [verifyShard] at heq
    split at heq
    · exact absurd heq (by simp)
    · split at heq
      · exact absurd heq (by simp)
      · split at heq
        · exact absurd heq (by simp)
        · split at heq
          · exact absurd heq (by simp)
          · split at heq
            · exact absurd heq (by simp)
            · split at heq
              · exact absurd heq (by simp)
              · split at heq
                · split at heq
                  · rename_i s2 evs2 hcs
                    simp only [completeSession] at hcs
                    split at hcs
                    · exact absurd hcs (by simp)
                    · rename_i hnc
                      simp only [Except.ok.injEq, Prod.mk.injEq] at hcs heq
                      obtain ⟨hs2, he2⟩ := hcs
                      obtain ⟨hs, he⟩ := heq
                      subst hs2
                      subst he2
                      subst hs
                      subst he
                      have hncf : (s.sessions sessionId).isComplete = false := by
                        revert hnc
                        simp [markVerified]
                      constructor
                      · intro _
                        simp [markVerified, upd_self]
                      · intro _
                        exact ⟨hncf, by simp [markVerified, upd_self]⟩
                  · exact absurd heq (by simp)
                · simp only [Except.ok.injEq, Prod.mk.injEq] at heq
                  obtain ⟨hs, he⟩ := heq
                  subst hs
                  subst he
                  constructor
                  · rintro ⟨h1, h2⟩
                    rw [show ((markVerified s sessionId idx).sessions sessionId).isComplete
                        = (s.sessions sessionId).isComplete from rfl, h1] at h2
                    exact absurd h2 (by simp)
                  · intro hmem
                    exact absurd hmem (by simp)

/-- C1 counterexample: session `"s"` (threshold 1, two added shards) is
complete after verifying shard 0.  Shard 1 is present (`holder = 3`)
and still unverified, the oracle accepts its proof, and its value 7 is
a candidate — yet `verifyShard` does not succeed in setting its
`isVerified` flag: the renewed threshold check re-enters
`completeSession`, whose `require(!isComplete)` reverts the whole call
with `SessionAlreadyCompleted`, leaving the flag false. -/
theorem post_completion_verify_fails_cex :
    (stC1.sessions "s").isComplete = true ∧
    (stC1.sessionShards "s" 1).holder = 3 ∧
    (stC1.sessionShards "s" 1).isVerified = false ∧
    errOf (verifyShard envAll stC1 "s" 1 7 0) = some .SessionAlreadyCompleted ∧
    ((resultingState (verifyShard envAll stC1 "s" 1 7 0) stC1).sessionShards "s" 1).isVerified
      = false := by
  decide

/-- C1 witness: at the completed store `stC1` (verified count 1 ≥
threshold 1), every `verifyShard` reverts, and the successful
completing call on `stC1`'s predecessor emitted `SessionCompleted`
exactly at the incomplete→complete transition. -/
theorem completion_exactly_once_w :
    exOk (verifyShard envAll stC1 "s" 1 7 0) = false :=
  completion_exactly_once.1 envAll stC1 "s" 1 7 0 (by decide) (by decide)
